import Mathlib

/-!
Verification of the log-review session service of the autoforge repository
(`server/services/log_review_session.py` and its caller
`server/routers/log_review.py`).

The service is embedded shallowly:

* Python strings are `List Char` (`Str` below); Python slicing `s[:n]` is
  `List.take n`, substring test `needle in s` is `strContains s needle`.
* The log database (`get_sessions` / `get_session_logs` from
  `agent_session_database`) is an external collaborator; it is modelled as a
  record of query functions (`LogDB`).  The limits that the code passes to
  the collaborator (10 sessions, 50 / 200 log lines per session) are applied
  by the collaborator itself, so the model takes the collaborator's already
  limited answers as given lists.  The caps applied in this file's own code
  (`[:200]`, `[:500]`, per-line truncation) are modelled explicitly.
* The configuration files read by `_read_project_config` are modelled as a
  record of read outcomes (`ProjectFiles`): a file is absent, unreadable
  (reading raised, section silently skipped) or readable with some content.
* The Claude SDK client is an external collaborator: constructing / entering
  it either fails or succeeds (`OpenResult`), and one query produces a list
  of text chunks and either finishes or raises (`QueryOutcome`).
* The async generators `start` / `send_message` are pure functions from the
  environment (collaborator behaviour) and the session state to the emitted
  fragment list and the successor state.  Wall-clock timestamps attached to
  turn-log entries are not modelled (they influence no observable claim).
-/

namespace LogReview

/-- Characters of a Python string value. -/
abbrev Str := List Char

/-- Python substring test: `strContains haystack needle` is the Python
expression `needle in haystack`. -/
def strContains : Str → Str → Bool
  | [], needle => needle.isEmpty
  | h :: t, needle => needle.isPrefixOf (h :: t) || strContains t needle

/-- Outbound protocol unit, the tagged dictionaries yielded by the service
(`type` field plus optional `content`). -/
inductive Fragment
  | text (content : Str)
  | analysisComplete
  | responseDone
  | error (content : Str)
  | pong
deriving DecidableEq, Repr

/-- Role of a turn-log entry (the `role` field of `self.messages` items). -/
inductive Role
  | user
  | assistant
deriving DecidableEq, Repr

/-- Entry of `self.messages`.  The source also stores an ISO timestamp taken
from the wall clock; it is not modelled. -/
structure Msg where
  role : Role
  content : Str
deriving DecidableEq, Repr

/-- Truncation limit for configuration-like files (source constant
`CONFIG_TRUNCATION_LIMIT`). -/
def CONFIG_TRUNCATION_LIMIT : Nat := 8000

/-- Truncation limit for prompt files (source constant
`PROMPT_TRUNCATION_LIMIT`). -/
def PROMPT_TRUNCATION_LIMIT : Nat := 4000

/-- Row of `get_sessions`: session metadata as the formatting code consumes
it.  `durationStr` stands for the rendered `" ({mins:.0f}min)"` suffix (or
`""`), abstracting the datetime parsing and arithmetic, which live in the
standard library, not in this repository. -/
structure SessionMeta where
  id : Nat
  status : Str
  yolo : Str
  model : Str
  concurrency : Str
  started : Str
  durationStr : Str
deriving DecidableEq, Repr

/-- Row of `get_session_logs`: one log line with its metadata fields. -/
structure LogRow where
  timestamp : Str
  agent : Str
  content : Str
deriving DecidableEq, Repr

/-- The log-storage collaborator.  `sessions` is the answer of
`get_sessions(project_dir, project_name, limit=10)`; the three log functions
are `get_session_logs(project_dir, sid, line_type_filter=..., limit=...)`
for filters "error" (limit 50), "tool_use" (limit 200) and "tool_result"
(limit 200). -/
structure LogDB where
  sessions : List SessionMeta
  errorLogs : Nat → List LogRow
  toolLogs : Nat → List LogRow
  resultLogs : Nat → List LogRow

/-- Decimal rendering of a session id, as Python string interpolation does. -/
def natStr (n : Nat) : Str := (toString n).toList

/-- The sentinel returned by `_gather_log_context` when no sessions exist. -/
def noSessionsText : Str :=
  "<no_sessions>\nNo agent sessions found. The agent has not been run yet for this project.\n</no_sessions>".toList

/-- One formatted line of the `<sessions>` section. -/
def sessionLine (s : SessionMeta) : Str :=
  "  Session #".toList ++ natStr s.id ++ ": status=".toList ++ s.status
    ++ ", yolo=".toList ++ s.yolo ++ ", model=".toList ++ s.model
    ++ ", concurrency=".toList ++ s.concurrency
    ++ ", started=".toList ++ s.started ++ s.durationStr

/-- One formatted line of the `<errors>` section; the row content is
truncated to 500 characters. -/
def errorLine (sid : Nat) (r : LogRow) : Str :=
  "  [Session #".toList ++ natStr sid ++ "] [".toList ++ r.timestamp
    ++ "] agent=".toList ++ r.agent ++ ": ".toList ++ r.content.take 500

/-- One formatted line of the `<tool_usage>` section; content truncated to
300 characters. -/
def toolLine (sid : Nat) (r : LogRow) : Str :=
  "  [Session #".toList ++ natStr sid ++ "] ".toList ++ r.content.take 300

/-- One formatted line of the `<failed_tool_results>` section; content
truncated to 500 characters. -/
def resultLine (sid : Nat) (r : LogRow) : Str :=
  "  [Session #".toList ++ natStr sid ++ "] ".toList ++ r.content.take 500

/-- Failure-indicating keywords searched in lowered tool-result content. -/
def failureKeywords : List Str :=
  ["error".toList, "failed".toList, "denied".toList, "permission".toList,
   "not allowed".toList]

/-- Python `content.lower()` followed by the keyword membership test. -/
def hasFailureKeyword (content : Str) : Bool :=
  failureKeywords.any (fun kw => strContains (content.map Char.toLower) kw)

/-- Newline separator (`chr(10)`). -/
def nlSep : Str := ['\n']

/-- Blank-line separator used by the final `"\n\n".join(sections)`. -/
def sectionSep : Str := "\n\n".toList

/-- Embedding of `LogReviewSession._gather_log_context`. -/
def gather_log_context (db : LogDB) : Str :=
  if db.sessions = [] then noSessionsText
  else
    let sessionSection : Str :=
      "<sessions>\n".toList
        ++ List.intercalate nlSep (db.sessions.map sessionLine)
        ++ "\n</sessions>".toList
    let sessionIds : List Nat := (db.sessions.take 5).map (fun s => s.id)
    let errorLines : List Str :=
      sessionIds.flatMap (fun sid => (db.errorLogs sid).map (errorLine sid))
    let errorSection : Str :=
      if errorLines = [] then
        "<errors>\nNo errors found in recent sessions.\n</errors>".toList
      else
        "<errors>\n".toList ++ List.intercalate nlSep (errorLines.take 200)
          ++ "\n</errors>".toList
    let toolLines : List Str :=
      (sessionIds.take 3).flatMap (fun sid => (db.toolLogs sid).map (toolLine sid))
    let toolSections : List Str :=
      if toolLines = [] then []
      else
        ["<tool_usage>\n".toList ++ List.intercalate nlSep (toolLines.take 500)
          ++ "\n</tool_usage>".toList]
    let resultLines : List Str :=
      (sessionIds.take 5).flatMap (fun sid =>
        ((db.resultLogs sid).filter (fun r => hasFailureKeyword r.content)).map
          (resultLine sid))
    let resultSections : List Str :=
      if resultLines = [] then []
      else
        ["<failed_tool_results>\n".toList
          ++ List.intercalate nlSep (resultLines.take 200)
          ++ "\n</failed_tool_results>".toList]
    List.intercalate sectionSep
      ([sessionSection, errorSection] ++ toolSections ++ resultSections)

/-- Outcome of reading one configuration file: missing, present but raising
on read (section silently skipped), or read with some content. -/
inductive FileRead
  | absent
  | unreadable
  | readable (content : Str)
deriving DecidableEq, Repr

/-- The four fixed-path files `_read_project_config` looks at. -/
structure ProjectFiles where
  allowedCommands : FileRead
  codingPrompt : FileRead
  initializerPrompt : FileRead
  claudeMd : FileRead
deriving DecidableEq, Repr

/-- Embedding of `LogReviewSession._read_project_config`. -/
def read_project_config (fs : ProjectFiles) : Str :=
  let s1 : List Str :=
    match fs.allowedCommands with
    | .absent =>
        ["<allowed_commands_yaml>\nNo allowed_commands.yaml found (using defaults only).\n</allowed_commands_yaml>".toList]
    | .unreadable => []
    | .readable c =>
        ["<allowed_commands_yaml>\n".toList ++ c.take CONFIG_TRUNCATION_LIMIT
          ++ "\n</allowed_commands_yaml>".toList]
  let s2 : List Str :=
    match fs.codingPrompt with
    | .absent => []
    | .unreadable => []
    | .readable c =>
        ["<coding_prompt>\n".toList ++ c.take PROMPT_TRUNCATION_LIMIT
          ++ "\n</coding_prompt>".toList]
  let s3 : List Str :=
    match fs.initializerPrompt with
    | .absent => []
    | .unreadable => []
    | .readable c =>
        ["<initializer_prompt>\n".toList ++ c.take PROMPT_TRUNCATION_LIMIT
          ++ "\n</initializer_prompt>".toList]
  let s4 : List Str :=
    match fs.claudeMd with
    | .absent => []
    | .unreadable => []
    | .readable c =>
        ["<claude_md>\n".toList ++ c.take CONFIG_TRUNCATION_LIMIT
          ++ "\n</claude_md>".toList]
  let sections := s1 ++ s2 ++ s3 ++ s4
  if sections = [] then "No project configuration files found.".toList
  else List.intercalate sectionSep sections

/-- Outcome of constructing and entering the Claude SDK client in `start`:
the constructor call raised (`self.client` stays `None`), `__aenter__`
raised (`self.client` is set but `_client_entered` stays false), or both
succeeded. -/
inductive OpenResult
  | ctorFailed
  | enterFailed
  | ok
deriving DecidableEq, Repr

/-- Behaviour of one `_query_claude` run: the text chunks received from the
response stream, and whether the run finished or raised after producing
them. -/
inductive QueryOutcome
  | success (chunks : List Str)
  | failure (chunks : List Str)
deriving DecidableEq, Repr

/-- Chunks a query produced before finishing or raising. -/
def QueryOutcome.chunks : QueryOutcome → List Str
  | .success cs => cs
  | .failure cs => cs

/-- True when the query raised. -/
def QueryOutcome.failed : QueryOutcome → Bool
  | .success _ => false
  | .failure _ => true

/-- Observable per-session state: `client` is `self.client is not None`,
`clientEntered` is `self._client_entered`, `messages` is `self.messages`,
`complete` is `self.complete`, `settingsFileSet` is
`self._settings_file is not None` and `settingsOnDisk` records whether the
transient settings artifact currently exists on disk. -/
structure LRState where
  client : Bool
  clientEntered : Bool
  messages : List Msg
  complete : Bool
  settingsFileSet : Bool
  settingsOnDisk : Bool
deriving DecidableEq, Repr

/-- State of a freshly constructed `LogReviewSession`. -/
def initialState : LRState :=
  { client := false, clientEntered := false, messages := [],
    complete := false, settingsFileSet := false, settingsOnDisk := false }

/-- Environment of one `start()` invocation: whether `shutil.which` finds
the CLI, the log-storage collaborator, the configuration files, the client
construction outcome and the analysis query's outcome. -/
structure StartEnv where
  cliFound : Bool
  db : LogDB
  files : ProjectFiles
  openResult : OpenResult
  query : QueryOutcome

/-- Result of one `start()` or `send_message()` invocation: the fragments
yielded in order, the successor session state, and whether a model client
was constructed (the Streaming Query Adapter was invoked). -/
structure InvocationResult where
  fragments : List Fragment
  state : LRState
  adapterOpened : Bool
deriving Repr

/-- Error text for a missing CLI binary. -/
def cliErrorMsg : Str :=
  "Claude CLI not found. Please install it: npm install -g @anthropic-ai/claude-code".toList

/-- Progress text yielded before the log context is gathered. -/
def analyzingMsg : Str := "Analyzing agent session logs...\n\n".toList

/-- Explanatory text of the no-sessions branch. -/
def noSessionsNotice : Str :=
  "No agent sessions found for this project. Run the agent at least once to generate logs for analysis.".toList

/-- Error text when client construction or entry fails. -/
def initFailMsg : Str := "Failed to initialize Claude for log analysis".toList

/-- Error text when the initial analysis query raises. -/
def startFailMsg : Str := "Failed to start analysis".toList

/-- Error text of the not-initialized rejection in `send_message`. -/
def notInitMsg : Str := "Session not initialized. Call start() first.".toList

/-- Error text when a follow-up query raises. -/
def followupFailMsg : Str := "Error while processing follow-up question".toList

/-- The literal whose presence in the gathered log context selects the
no-sessions branch of `start` (`if "<no_sessions>" in log_context`). -/
def noSessionsMarker : Str := "<no_sessions>".toList

/-- Fragments `_query_claude` yields: one `text` fragment per non-empty
text chunk (other response blocks are ignored). -/
def queryFragments (chunks : List Str) : List Fragment :=
  (chunks.filter (fun c => !c.isEmpty)).map Fragment.text

/-- Assistant entries `_query_claude` appends to `self.messages`, one per
non-empty text chunk, in stream order. -/
def assistantEntries (chunks : List Str) : List Msg :=
  (chunks.filter (fun c => !c.isEmpty)).map (fun c => ⟨Role.assistant, c⟩)

/-- Embedding of `LogReviewSession.start`.  The system-prompt text built by
`_build_system_prompt` is consumed only by the model collaborator and
influences no fragment, so only the configuration read is retained.  The
query of the success path runs under `self._query_lock`; the lock protocol
itself is modelled separately (`LockSys`). -/
def start (env : StartEnv) (st : LRState) : InvocationResult :=
  if !env.cliFound then
    { fragments := [Fragment.error cliErrorMsg], state := st, adapterOpened := false }
  else
    let logContext := gather_log_context env.db
    if strContains logContext noSessionsMarker then
      { fragments :=
          [Fragment.text analyzingMsg, Fragment.text noSessionsNotice,
           Fragment.analysisComplete],
        state := { st with complete := true }, adapterOpened := false }
    else
      let _cfg := read_project_config env.files
      let st1 : LRState := { st with settingsFileSet := true, settingsOnDisk := true }
      match env.openResult with
      | .ctorFailed =>
          { fragments := [Fragment.text analyzingMsg, Fragment.error initFailMsg],
            state := st1, adapterOpened := true }
      | .enterFailed =>
          { fragments := [Fragment.text analyzingMsg, Fragment.error initFailMsg],
            state := { st1 with client := true }, adapterOpened := true }
      | .ok =>
          let st2 : LRState := { st1 with client := true, clientEntered := true }
          match env.query with
          | .success chunks =>
              { fragments :=
                  [Fragment.text analyzingMsg] ++ queryFragments chunks
                    ++ [Fragment.analysisComplete, Fragment.responseDone],
                state := { st2 with
                  messages := st2.messages ++ assistantEntries chunks,
                  complete := true },
                adapterOpened := true }
          | .failure chunks =>
              { fragments :=
                  [Fragment.text analyzingMsg] ++ queryFragments chunks
                    ++ [Fragment.error startFailMsg],
                state := { st2 with
                  messages := st2.messages ++ assistantEntries chunks },
                adapterOpened := true }

/-- Embedding of `LogReviewSession.send_message`.  The user turn is appended
to `self.messages` before the query is issued; the query runs under
`self._query_lock`. -/
def send_message (query : QueryOutcome) (st : LRState) (userMessage : Str) :
    List Fragment × LRState :=
  if !st.client then
    ([Fragment.error notInitMsg], st)
  else
    let st1 : LRState :=
      { st with messages := st.messages ++ [⟨Role.user, userMessage⟩] }
    match query with
    | .success chunks =>
        (queryFragments chunks ++ [Fragment.responseDone],
         { st1 with messages := st1.messages ++ assistantEntries chunks })
    | .failure chunks =>
        (queryFragments chunks ++ [Fragment.error followupFailMsg],
         { st1 with messages := st1.messages ++ assistantEntries chunks })

/-- Embedding of `LogReviewSession.close`.  `aexitOk` records whether
`self.client.__aexit__` raised (the exception is swallowed; the `finally`
block clears the handle either way), `unlinkOk` whether deleting the
settings artifact succeeded (a failure is swallowed and the file remains).
The client is exited only when it was entered. -/
def close (_aexitOk unlinkOk : Bool) (st : LRState) : LRState :=
  let st1 : LRState :=
    if st.client && st.clientEntered then
      { st with client := false, clientEntered := false }
    else st
  if st1.settingsFileSet && st1.settingsOnDisk then
    if unlinkOk then { st1 with settingsOnDisk := false } else st1
  else st1

/-- The module-level session registry `_log_review_sessions`: a map from
project name to live session, modelled as an association list with at most
one binding per key.  Keys and sessions are identified by naturals; a
session value is its identity, so "closed exactly once" is observable in
the list of close calls an operation performs.  All map mutations of the
source run under `_log_review_sessions_lock`; the operations below are the
critical sections plus the teardown that the source performs after
releasing the lock. -/
abbrev Registry := List (Nat × Nat)

/-- Registry lookup (`_log_review_sessions.get(project_name)` /
`.pop(project_name, None)` capture). -/
def regLookup (k : Nat) (reg : Registry) : Option Nat :=
  (reg.find? (fun p => p.1 == k)).map (fun p => p.2)

/-- Removal of a key's binding (`dict.pop`). -/
def regErase (k : Nat) (reg : Registry) : Registry :=
  reg.filter (fun p => p.1 != k)

/-- Result of `create_log_review_session`: the registry after the call, the
sessions on which `close()` was invoked (in order), and the returned
session. -/
structure CreateResult where
  reg : Registry
  closed : List Nat
  ret : Nat
deriving DecidableEq, Repr

/-- Embedding of `create_log_review_session`.  Under the lock the old
binding is popped and the fresh session installed; after the lock is
released the captured old session, if any, is closed exactly once inside a
try/except, so `closeOk` (whether that close raised) influences neither the
closed list nor the returned session. -/
def create_log_review_session (reg : Registry) (k : Nat) (fresh : Nat)
    (closeOk : Bool) : CreateResult :=
  let old := regLookup k reg
  let reg1 : Registry := (k, fresh) :: regErase k reg
  match old with
  | some o =>
      let _ := closeOk
      { reg := reg1, closed := [o], ret := fresh }
  | none => { reg := reg1, closed := [], ret := fresh }

/-- Embedding of `cleanup_all_log_review_sessions`.  Under the lock the
whole map is captured and cleared; outside the lock every captured session
is closed inside a try/except, so the per-session `closeOk` flags influence
nothing observable. -/
def cleanup_all_log_review_sessions (reg : Registry) (closeOk : Nat → Bool) :
    Registry × List Nat :=
  let sessionsToClose := reg.map (fun p => p.2)
  let _ := closeOk
  ([], sessionsToClose)

/-- Phase of one query task in the lock model: the task has not yet reached
its `async with self._query_lock` block, holds the lock with the given
fragments of its stream still to emit, or has released the lock. -/
inductive TaskPhase
  | idle
  | running (remaining : List Fragment)
  | done
deriving DecidableEq, Repr

/-- True in the `running` phase, i.e. while the task holds the lock. -/
def TaskPhase.isRunning : TaskPhase → Bool
  | .running _ => true
  | _ => false

/-- Interleaving model of `self._query_lock`: two query tasks of the same
session (for instance the `start()` analysis query and a concurrently
issued `send_message()` follow-up query, identified as `true` and `false`),
a shared mutual-exclusion lock, and the trace of fragments emitted so far,
tagged by emitting task. -/
structure LockSys where
  taskA : TaskPhase
  taskB : TaskPhase
  trace : List (Bool × Fragment)
deriving DecidableEq, Repr

/-- Phase of the task named by `i`. -/
def LockSys.phase (s : LockSys) (i : Bool) : TaskPhase :=
  if i then s.taskA else s.taskB

/-- Replace the phase of the task named by `i`. -/
def LockSys.setPhase (s : LockSys) (i : Bool) (p : TaskPhase) : LockSys :=
  if i then { s with taskA := p } else { s with taskB := p }

/-- One scheduler step giving task `i` a chance to act: an idle task
acquires the lock (entering its `async with` block with its query's stream
`fA` or `fB`) only when neither task holds it; a running task emits its
next fragment, or releases the lock when its stream is exhausted; a
finished task does nothing. -/
def lockStep (fA fB : List Fragment) (s : LockSys) (i : Bool) : LockSys :=
  match s.phase i with
  | .idle =>
      if s.taskA.isRunning || s.taskB.isRunning then s
      else s.setPhase i (.running (if i then fA else fB))
  | .running [] => s.setPhase i .done
  | .running (f :: rest) =>
      { s.setPhase i (.running rest) with trace := s.trace ++ [(i, f)] }
  | .done => s

/-- Run a whole schedule (an arbitrary interleaving of the two tasks) from
the initial system. -/
def lockRun (fA fB : List Fragment) (sch : List Bool) : LockSys :=
  sch.foldl (lockStep fA fB) { taskA := .idle, taskB := .idle, trace := [] }

/-- Check that after the first change of emitter no event of the earlier
emitter follows: `ys.all` demands every later event to belong to the second
emitter. -/
def serialAux (x : Bool) : List Bool → Bool
  | [] => true
  | y :: ys => if y == x then serialAux x ys else ys.all (fun z => z == y)

/-- True when a trace's emitter sequence consists of at most two
homogeneous blocks, i.e. the fragments of the two queries are not
interleaved. -/
def serialOk : List Bool → Bool
  | [] => true
  | x :: xs => serialAux x xs

/-- True exactly on `text` fragments. -/
def isTextFrag : Fragment → Bool
  | .text _ => true
  | _ => false

/-- True when the last fragment of a stream is an `error` fragment. -/
def lastIsError (l : List Fragment) : Bool :=
  match l.getLast? with
  | some (.error _) => true
  | _ => false

/-- Number of user turns in a turn log. -/
def userCount (l : List Msg) : Nat :=
  l.countP (fun x => x.role == Role.user)

/-! Concrete collaborator behaviours used by counterexamples and witnesses. -/

/-- A project with zero recorded sessions. -/
def dbEmpty : LogDB := ⟨[], fun _ => [], fun _ => [], fun _ => []⟩

/-- No configuration files present. -/
def filesNone : ProjectFiles := ⟨.absent, .absent, .absent, .absent⟩

/-- Metadata of one recorded session. -/
def metaOne : SessionMeta :=
  ⟨1, "completed".toList, "False".toList, "opus".toList, "2".toList,
   "2025-01-01T00:00:00".toList, []⟩

/-- A project with one recorded session and no noteworthy log lines. -/
def dbOne : LogDB := ⟨[metaOne], fun _ => [], fun _ => [], fun _ => []⟩

/-- A project with one recorded session whose error log content happens to
contain the literal no-sessions marker. -/
def dbMarkerLeak : LogDB :=
  ⟨[metaOne],
   fun _ => [⟨"2025-01-01T00:05:00".toList, "coder".toList,
              "<no_sessions> echoed inside a log line".toList⟩],
   fun _ => [], fun _ => []⟩

/-- Environment: CLI present, zero recorded sessions. -/
def envNoSessions : StartEnv := ⟨true, dbEmpty, filesNone, .ok, .success []⟩

/-- Environment: CLI present, one recorded session whose logs leak the
marker. -/
def envMarkerLeak : StartEnv := ⟨true, dbMarkerLeak, filesNone, .ok, .success []⟩

/-- Environment: CLI present, one recorded session, client construction
raises. -/
def envOpenFail : StartEnv := ⟨true, dbOne, filesNone, .ctorFailed, .success []⟩

/-- Environment: CLI present, one recorded session, everything succeeds and
the analysis query streams one chunk. -/
def envOk : StartEnv :=
  ⟨true, dbOne, filesNone, .ok, .success ["The report.".toList]⟩

/-! Helper lemmas. -/

/-- With zero sessions the context gatherer returns the sentinel. -/
lemma gather_log_context_nil (db : LogDB) (h : db.sessions = []) :
    gather_log_context db = noSessionsText := by
  simp [gather_log_context, h]

/-- The sentinel contains the marker that `start` searches for. -/
lemma marker_in_noSessionsText :
    strContains noSessionsText noSessionsMarker = true := by decide

/-- Appending one fragment fixes the last element of a stream. -/
lemma lastFrag_append_one (l : List Fragment) (a : Fragment) :
    (l ++ [a]).getLast? = some a := List.getLast?_concat l

/-- Appending two fragments fixes the last element of a stream. -/
lemma lastFrag_append_pair (l : List Fragment) (a b : Fragment) :
    (l ++ [a, b]).getLast? = some b := by
  have h : l ++ [a, b] = (l ++ [a]) ++ [b] := by simp
  rw [h]; exact List.getLast?_concat (l ++ [a])

/-! Claim theorems. -/

/-- C2 (corrected), counterexample: for a project with zero recorded
sessions (and the CLI present) the stream of `start()` holds two `text`
fragments — the progress notice emitted before the context is gathered and
the no-sessions notice — so it does not consist of exactly one `text`
fragment followed by `analysis_complete`. -/
theorem start_no_sessions_two_text_fragments :
    (start envNoSessions initialState).fragments =
      [Fragment.text analyzingMsg, Fragment.text noSessionsNotice,
       Fragment.analysisComplete] ∧
    ((start envNoSessions initialState).fragments.countP isTextFrag) ≠ 1 := by
  decide

/-- C2 (amended): for every project with zero recorded sessions, when the
CLI binary is found, `start()` yields exactly two `text` fragments — a
progress notice, then the no-sessions notice — then one
`analysis_complete` fragment, sets the completion flag to true, changes
nothing else of the session state, and never invokes the Streaming Query
Adapter. -/
theorem start_no_sessions_stream (env : StartEnv) (st : LRState)
    (h1 : env.cliFound = true) (h2 : env.db.sessions = []) :
    start env st =
      { fragments :=
          [Fragment.text analyzingMsg, Fragment.text noSessionsNotice,
           Fragment.analysisComplete],
        state := { st with complete := true },
        adapterOpened := false } := by
  simp [start, h1, gather_log_context_nil env.db h2, marker_in_noSessionsText]

/-- C2 witness: the amended statement evaluated at a concrete project with
zero recorded sessions. -/
theorem start_no_sessions_stream_witness :
    start envNoSessions initialState =
      { fragments :=
          [Fragment.text analyzingMsg, Fragment.text noSessionsNotice,
           Fragment.analysisComplete],
        state := { initialState with complete := true },
        adapterOpened := false } :=
  start_no_sessions_stream envNoSessions initialState rfl rfl

/-- C9 (confirmed): `start()` picks the no-sessions branch by searching the
assembled log context for the literal marker, not by re-checking the
session count: for a project with one recorded session whose error-log
content contains the literal marker string, `start()` emits the
no-sessions notice, sets completion true and never opens the adapter, even
though sessions exist. -/
theorem marker_substring_selects_no_sessions_branch :
    dbMarkerLeak.sessions ≠ [] ∧
    (start envMarkerLeak initialState).fragments =
      [Fragment.text analyzingMsg, Fragment.text noSessionsNotice,
       Fragment.analysisComplete] ∧
    (start envMarkerLeak initialState).state.complete = true ∧
    (start envMarkerLeak initialState).adapterOpened = false := by
  decide

/-- C6 (confirmed): for a project key holding an existing session,
`create_log_review_session` pops the old binding and installs the fresh
session under the registry lock, closes the captured old session exactly
once outside the lock, and returns the fresh session whether or not the
close raised; afterwards the key maps to the fresh session. -/
theorem create_replacing_closes_old_once (reg : Registry) (k fresh o : Nat)
    (closeOk : Bool) (h : regLookup k reg = some o) :
    (create_log_review_session reg k fresh closeOk).closed = [o] ∧
    (create_log_review_session reg k fresh closeOk).ret = fresh ∧
    regLookup k (create_log_review_session reg k fresh closeOk).reg =
      some fresh := by
  simp only [create_log_review_session, h]
  simp [regLookup, List.find?]

/-- C6 witness: replacing the registered session 7 of project 1 by session
9 closes exactly session 7 and returns session 9. -/
theorem create_replacing_closes_old_once_witness :
    (create_log_review_session [(1, 7)] 1 9 false).closed = [7] ∧
    (create_log_review_session [(1, 7)] 1 9 false).ret = 9 ∧
    regLookup 1 (create_log_review_session [(1, 7)] 1 9 false).reg = some 9 :=
  create_replacing_closes_old_once [(1, 7)] 1 9 7 false (by decide)

/-- C7 (confirmed): `cleanup_all_log_review_sessions` on an empty registry
closes nothing and leaves the registry empty (a no-op); on a registry of N
sessions it closes all N captured sessions — the per-session close-failure
flags change nothing — and leaves the registry map empty. -/
theorem cleanup_all_closes_all_and_empties (reg : Registry)
    (closeOk : Nat → Bool) :
    cleanup_all_log_review_sessions reg closeOk =
      ([], reg.map (fun p => p.2)) ∧
    (cleanup_all_log_review_sessions reg closeOk).2.length = reg.length ∧
    cleanup_all_log_review_sessions [] closeOk = ([], []) := by
  refine ⟨rfl, ?_, rfl⟩
  simp [cleanup_all_log_review_sessions]

/-- C8 (confirmed): with all four files readable and 20000 characters
long, the assembled configuration brief embeds exactly the first 8000
characters of the configuration-like files (allowed_commands.yaml,
CLAUDE.md) and exactly the first 4000 characters of the prompt files
(coding_prompt.md, initializer_prompt.md). -/
theorem config_truncation (a c i m : Str)
    (ha : a.length = 20000) (hc : c.length = 20000)
    (hi : i.length = 20000) (hm : m.length = 20000) :
    read_project_config ⟨.readable a, .readable c, .readable i, .readable m⟩ =
      List.intercalate sectionSep
        ["<allowed_commands_yaml>\n".toList ++ a.take CONFIG_TRUNCATION_LIMIT
           ++ "\n</allowed_commands_yaml>".toList,
         "<coding_prompt>\n".toList ++ c.take PROMPT_TRUNCATION_LIMIT
           ++ "\n</coding_prompt>".toList,
         "<initializer_prompt>\n".toList ++ i.take PROMPT_TRUNCATION_LIMIT
           ++ "\n</initializer_prompt>".toList,
         "<claude_md>\n".toList ++ m.take CONFIG_TRUNCATION_LIMIT
           ++ "\n</claude_md>".toList] ∧
    (a.take CONFIG_TRUNCATION_LIMIT).length = 8000 ∧
    (c.take PROMPT_TRUNCATION_LIMIT).length = 4000 ∧
    (i.take PROMPT_TRUNCATION_LIMIT).length = 4000 ∧
    (m.take CONFIG_TRUNCATION_LIMIT).length = 8000 := by
  refine ⟨rfl, ?_, ?_, ?_, ?_⟩ <;>
    simp [CONFIG_TRUNCATION_LIMIT, PROMPT_TRUNCATION_LIMIT,
      List.length_take, ha, hc, hi, hm]

/-- C8 witness: the truncation lengths at four concrete 20000-character
files. -/
theorem config_truncation_witness :
    ((List.replicate 20000 'a' : Str).take CONFIG_TRUNCATION_LIMIT).length
        = 8000 ∧
    ((List.replicate 20000 'b' : Str).take PROMPT_TRUNCATION_LIMIT).length
        = 4000 := by
  have h := config_truncation
    (List.replicate 20000 'a') (List.replicate 20000 'b')
    (List.replicate 20000 'c') (List.replicate 20000 'd')
    (List.length_replicate 20000 'a') (List.length_replicate 20000 'b')
    (List.length_replicate 20000 'c') (List.length_replicate 20000 'd')
  exact ⟨h.2.1, h.2.2.1⟩

/-- Last element of a stream that opens with one fragment and closes with
one appended fragment. -/
lemma lastFrag_cons_append_one (x : Fragment) (l : List Fragment)
    (a : Fragment) : (x :: (l ++ [a])).getLast? = some a := by
  have h : x :: (l ++ [a]) = (x :: l) ++ [a] := by simp
  rw [h]; exact List.getLast?_concat (x :: l)

/-- Last element of a stream that opens with one fragment and closes with
two appended fragments. -/
lemma lastFrag_cons_append_pair (x : Fragment) (l : List Fragment)
    (a b : Fragment) : (x :: (l ++ [a, b])).getLast? = some b := by
  have h : x :: (l ++ [a, b]) = ((x :: l) ++ [a]) ++ [b] := by simp
  rw [h]; exact List.getLast?_concat ((x :: l) ++ [a])

/-- The assistant entries appended by a query contain no user turn. -/
lemma userCount_assistantEntries (cs : List Str) :
    userCount (assistantEntries cs) = 0 := by
  simp [userCount, assistantEntries, List.countP_eq_zero]

/-- C1 (corrected), counterexample: the no-sessions branch of `start()`
produces a stream that does not end in an `error` fragment, yet its last
fragment is `analysis_complete`, not `response_done`. -/
theorem no_sessions_stream_not_responseDone :
    lastIsError (start envNoSessions initialState).fragments = false ∧
    (start envNoSessions initialState).fragments.getLast? =
      some Fragment.analysisComplete ∧
    (start envNoSessions initialState).fragments.getLast? ≠
      some Fragment.responseDone := by
  decide

/-- C1 (amended): for every `start()` or `send_message()` invocation whose
fragment stream does not end in an `error` fragment, the last fragment is
`response_done` — except for the start() branch where the no-sessions
marker is found in the gathered log context, whose stream ends with
`analysis_complete` instead (no `response_done` is emitted there). -/
theorem last_fragment_responseDone (env : StartEnv) (q : QueryOutcome)
    (st st2 : LRState) (m : Str) :
    (lastIsError (start env st).fragments = false →
      (start env st).fragments.getLast? = some Fragment.responseDone ∨
      ((start env st).fragments.getLast? = some Fragment.analysisComplete ∧
       strContains (gather_log_context env.db) noSessionsMarker = true)) ∧
    (lastIsError (send_message q st2 m).1 = false →
      (send_message q st2 m).1.getLast? = some Fragment.responseDone) := by
  constructor
  · intro hne
    by_cases hcli : env.cliFound = true
    · by_cases hmark :
        strContains (gather_log_context env.db) noSessionsMarker = true
      · right
        refine ⟨?_, hmark⟩
        simp [start, hcli, hmark]
      · have hmark' :
            strContains (gather_log_context env.db) noSessionsMarker = false :=
          by
            cases hb : strContains (gather_log_context env.db) noSessionsMarker
            · rfl
            · exact absurd hb hmark
        cases hOpen : env.openResult with
        | ctorFailed =>
          exfalso
          simp [start, hcli, hmark', hOpen, lastIsError] at hne
        | enterFailed =>
          exfalso
          simp [start, hcli, hmark', hOpen, lastIsError] at hne
        | ok =>
          cases hq : env.query with
          | success chunks =>
            left
            simp [start, hcli, hmark', hOpen, hq, lastFrag_cons_append_pair]
          | failure chunks =>
            exfalso
            simp [start, hcli, hmark', hOpen, hq, lastIsError,
              lastFrag_cons_append_one] at hne
    · exfalso
      have hcli' : env.cliFound = false := by
        cases hb : env.cliFound
        · rfl
        · exact absurd hb hcli
      simp [start, hcli', lastIsError] at hne
  · intro hne
    by_cases hcl : st2.client = true
    · cases hq : q with
      | success chunks =>
        simp [send_message, hcl, lastFrag_append_one]
      | failure chunks =>
        exfalso
        simp [send_message, hcl, hq, lastIsError, lastFrag_append_one] at hne
    · exfalso
      have hcl' : st2.client = false := by
        cases hb : st2.client
        · rfl
        · exact absurd hb hcl
      simp [send_message, hcl', lastIsError] at hne

/-- C1 witness: a successful analysis run ends with `response_done`. -/
theorem last_fragment_responseDone_witness :
    (start envOk initialState).fragments.getLast? =
        some Fragment.responseDone ∨
    ((start envOk initialState).fragments.getLast? =
        some Fragment.analysisComplete ∧
     strContains (gather_log_context envOk.db) noSessionsMarker = true) :=
  (last_fragment_responseDone envOk (QueryOutcome.success [])
    initialState initialState []).1 (by decide)

/-- C3 (corrected), counterexample: a session whose `start()` took the
no-sessions branch has emitted `analysis_complete` (completion flag true),
yet a subsequent `send_message()` rejects it with the not-initialized
`error` fragment. -/
theorem no_sessions_then_send_message_rejected :
    (start envNoSessions initialState).state.complete = true ∧
    send_message (QueryOutcome.success [])
        (start envNoSessions initialState).state "What happened?".toList =
      ([Fragment.error notInitMsg],
       (start envNoSessions initialState).state) := by
  decide

/-- C3 (amended): `send_message()` rejects with the not-initialized `error`
fragment exactly when the session holds no client connection — not when
the completion flag is false.  A no-sessions `start()` leaves no client,
so its sessions are rejected despite completion being true. -/
theorem send_message_reject_iff_no_client (q : QueryOutcome) (st : LRState)
    (m : Str) :
    send_message q st m = ([Fragment.error notInitMsg], st) ↔
      st.client = false := by
  constructor
  · intro h
    by_contra hc
    have hct : st.client = true := by
      cases hb : st.client
      · exact absurd hb hc
      · rfl
    have hmsg : (send_message q st m).2.messages =
        (st.messages ++ [⟨Role.user, m⟩]) ++ assistantEntries q.chunks := by
      cases q <;> simp [send_message, hct, QueryOutcome.chunks]
    rw [h] at hmsg
    have hlen := congrArg List.length hmsg
    simp [List.length_append] at hlen
  · intro h
    simp [send_message, h]

/-- C5 (corrected), counterexample: when client construction fails,
`start()` emits the `error` fragment and ends, but the transient settings
artifact written just before is still on disk after the failure. -/
theorem open_failure_settings_artifact_remains :
    (start envOpenFail initialState).fragments =
      [Fragment.text analyzingMsg, Fragment.error initFailMsg] ∧
    (start envOpenFail initialState).state.settingsOnDisk = true := by
  decide

/-- C5 (amended): if constructing or entering the model client fails,
`start()` emits one `error` fragment (after the progress text) and ends;
no entered connection remains, but the transient settings artifact stays
on disk after the failed invocation — it is removed only when `close()` is
later called on the session. -/
theorem start_open_failure_state (env : StartEnv) (st : LRState)
    (h0 : st.clientEntered = false) (h1 : env.cliFound = true)
    (h2 : strContains (gather_log_context env.db) noSessionsMarker = false)
    (h3 : env.openResult ≠ OpenResult.ok) :
    (start env st).fragments =
      [Fragment.text analyzingMsg, Fragment.error initFailMsg] ∧
    (start env st).state.clientEntered = false ∧
    (start env st).state.settingsOnDisk = true ∧
    (close true true (start env st).state).settingsOnDisk = false := by
  cases hOpen : env.openResult
  case ctorFailed => simp [start, h1, h2, hOpen, close, h0]
  case enterFailed => simp [start, h1, h2, hOpen, close, h0]
  case ok => exact absurd hOpen h3

/-- C5 witness: the amended statement at a concrete failing construction. -/
theorem start_open_failure_state_witness :
    (start envOpenFail initialState).state.clientEntered = false ∧
    (start envOpenFail initialState).state.settingsOnDisk = true ∧
    (close true true (start envOpenFail initialState).state).settingsOnDisk =
      false := by
  have h := start_open_failure_state envOpenFail initialState rfl rfl
    (by decide) (by decide)
  exact ⟨h.2.1, h.2.2.1, h.2.2.2⟩

/-- C10 (confirmed): `send_message()` on an initialized session appends the
user turn to the turn log before issuing the query, and the log holds
exactly one more user entry afterwards whether the query succeeds or
raises; when it raises, the `error` fragment ends the stream but the
appended user turn remains in the log. -/
theorem send_message_appends_user_turn (q : QueryOutcome) (st : LRState)
    (m : Str) (hc : st.client = true) (_hm : m ≠ []) :
    (send_message q st m).2.messages =
      (st.messages ++ [⟨Role.user, m⟩]) ++ assistantEntries q.chunks ∧
    userCount (send_message q st m).2.messages = userCount st.messages + 1 ∧
    (q.failed = true →
      (send_message q st m).1.getLast? =
        some (Fragment.error followupFailMsg)) := by
  refine ⟨?_, ?_, ?_⟩
  · cases q <;> simp [send_message, hc, QueryOutcome.chunks]
  · cases q <;>
      simp [send_message, hc, QueryOutcome.chunks, userCount,
        List.countP_append] <;>
      simpa [userCount] using userCount_assistantEntries _
  · cases q
    case success chunks => intro hfail; simp [QueryOutcome.failed] at hfail
    case failure chunks =>
      intro _
      simp [send_message, hc, lastFrag_append_one]

/-- C10 witness: a failing follow-up query still grows the log by the user
turn. -/
theorem send_message_appends_user_turn_witness :
    userCount (send_message (QueryOutcome.failure [])
        { initialState with client := true } "Why?".toList).2.messages =
      userCount ({ initialState with client := true } : LRState).messages
        + 1 ∧
    (send_message (QueryOutcome.failure [])
        { initialState with client := true } "Why?".toList).1.getLast? =
      some (Fragment.error followupFailMsg) :=
  ⟨(send_message_appends_user_turn (QueryOutcome.failure [])
      { initialState with client := true } "Why?".toList rfl
      (by decide)).2.1,
   (send_message_appends_user_turn (QueryOutcome.failure [])
      { initialState with client := true } "Why?".toList rfl
      (by decide)).2.2 rfl⟩

/-- Every event of a trace segment was emitted by task `i`. -/
def allBy (i : Bool) (tr : List (Bool × Fragment)) : Prop :=
  ∀ e ∈ tr, e.1 = i

/-- Invariant of the lock model: at most one task holds the lock, an idle
task has emitted nothing, and the trace splits into at most two
single-task blocks whose order matches which task ran first. -/
def LockInv (s : LockSys) : Prop :=
  match s.taskA, s.taskB with
  | .idle, .idle => s.trace = []
  | .running _, .idle => allBy true s.trace
  | .done, .idle => allBy true s.trace
  | .idle, .running _ => allBy false s.trace
  | .idle, .done => allBy false s.trace
  | .running _, .running _ => False
  | .running _, .done =>
      ∃ u v, s.trace = u ++ v ∧ allBy false u ∧ allBy true v
  | .done, .running _ =>
      ∃ u v, s.trace = u ++ v ∧ allBy true u ∧ allBy false v
  | .done, .done =>
      ∃ u v, s.trace = u ++ v ∧
        ((allBy true u ∧ allBy false v) ∨ (allBy false u ∧ allBy true v))

/-- The empty segment belongs to any task. -/
lemma allBy_nil (i : Bool) : allBy i [] := by
  intro e he
  cases he

/-- Appending an event of the owning task preserves segment ownership. -/
lemma allBy_snoc (i : Bool) (f : Fragment) (tr : List (Bool × Fragment))
    (h : allBy i tr) : allBy i (tr ++ [(i, f)]) := by
  intro e he
  rcases List.mem_append.mp he with h1 | h2
  · exact h e h1
  · rcases List.mem_singleton.mp h2 with rfl
    rfl

/-- One scheduler step preserves the lock-model invariant. -/
lemma lockStep_inv (fA fB : List Fragment) (s : LockSys) (i : Bool)
    (h : LockInv s) : LockInv (lockStep fA fB s i) := by
  obtain ⟨ta, tb, tr⟩ := s
  cases i with
  | true =>
    cases ta with
    | idle =>
      cases tb with
      | idle =>
        have htr : tr = [] := h
        subst htr
        exact allBy_nil true
      | running rem => exact h
      | done =>
        show ∃ u v, tr = u ++ v ∧ allBy false u ∧ allBy true v
        exact ⟨tr, [], by simp, h, allBy_nil true⟩
    | running rem =>
      cases rem with
      | nil =>
        cases tb with
        | idle => exact h
        | running rem2 => exact (h : False).elim
        | done =>
          have h' : ∃ u v, tr = u ++ v ∧ allBy false u ∧ allBy true v := h
          obtain ⟨u, v, htr, hu, hv⟩ := h'
          show ∃ u v, tr = u ++ v ∧
            ((allBy true u ∧ allBy false v) ∨ (allBy false u ∧ allBy true v))
          exact ⟨u, v, htr, Or.inr ⟨hu, hv⟩⟩
      | cons f rest =>
        cases tb with
        | idle => exact allBy_snoc true f tr h
        | running rem2 => exact (h : False).elim
        | done =>
          have h' : ∃ u v, tr = u ++ v ∧ allBy false u ∧ allBy true v := h
          obtain ⟨u, v, htr, hu, hv⟩ := h'
          show ∃ u v, tr ++ [(true, f)] = u ++ v ∧
            allBy false u ∧ allBy true v
          exact ⟨u, v ++ [(true, f)], by rw [htr]; simp, hu,
            allBy_snoc true f v hv⟩
    | done =>
      cases tb with
      | idle => exact h
      | running rem => exact h
      | done => exact h
  | false =>
    cases tb with
    | idle =>
      cases ta with
      | idle =>
        have htr : tr = [] := h
        subst htr
        exact allBy_nil false
      | running rem => exact h
      | done =>
        show ∃ u v, tr = u ++ v ∧ allBy true u ∧ allBy false v
        exact ⟨tr, [], by simp, h, allBy_nil false⟩
    | running rem =>
      cases rem with
      | nil =>
        cases ta with
        | idle => exact h
        | running rem2 => exact (h : False).elim
        | done =>
          have h' : ∃ u v, tr = u ++ v ∧ allBy true u ∧ allBy false v := h
          obtain ⟨u, v, htr, hu, hv⟩ := h'
          show ∃ u v, tr = u ++ v ∧
            ((allBy true u ∧ allBy false v) ∨ (allBy false u ∧ allBy true v))
          exact ⟨u, v, htr, Or.inl ⟨hu, hv⟩⟩
      | cons f rest =>
        cases ta with
        | idle => exact allBy_snoc false f tr h
        | running rem2 => exact (h : False).elim
        | done =>
          have h' : ∃ u v, tr = u ++ v ∧ allBy true u ∧ allBy false v := h
          obtain ⟨u, v, htr, hu, hv⟩ := h'
          show ∃ u v, tr ++ [(false, f)] = u ++ v ∧
            allBy true u ∧ allBy false v
          exact ⟨u, v ++ [(false, f)], by rw [htr]; simp, hu,
            allBy_snoc false f v hv⟩
    | done =>
      cases ta with
      | idle => exact h
      | running rem => exact h
      | done => exact h

/-- The invariant holds along any whole schedule. -/
lemma lockRun_inv (fA fB : List Fragment) (sch : List Bool) :
    LockInv (lockRun fA fB sch) := by
  have hgen : ∀ (l : List Bool) (s : LockSys), LockInv s →
      LockInv (l.foldl (lockStep fA fB) s) := by
    intro l
    induction l with
    | nil => intro s hs; exact hs
    | cons x xs ih =>
        intro s hs
        exact ih (lockStep fA fB s x) (lockStep_inv fA fB s x hs)
  exact hgen sch { taskA := .idle, taskB := .idle, trace := [] } rfl

/-- A homogeneous suffix passes the serialization check. -/
lemma serialAux_homog (x : Bool) :
    ∀ l : List Bool, (∀ z ∈ l, z = x) → serialAux x l = true
  | [], _ => rfl
  | y :: ys, h => by
      have hy : y = x := h y (List.mem_cons_self y ys)
      have hrest := serialAux_homog x ys
        (fun z hz => h z (List.mem_cons_of_mem y hz))
      simp [serialAux, hy, hrest]

/-- Two homogeneous blocks after a leading element of the first block pass
the serialization check. -/
lemma serialAux_two (a b : Bool) :
    ∀ (u : List Bool), (∀ z ∈ u, z = a) →
    ∀ (v : List Bool), (∀ z ∈ v, z = b) →
    serialAux a (u ++ v) = true
  | [], _, v, hv => by
      cases v with
      | nil => rfl
      | cons y ys =>
          show serialAux a (y :: ys) = true
          have hy : y = b := hv y (List.mem_cons_self y ys)
          by_cases hya : y = a
          · have hba : b = a := hy.symm.trans hya
            have hrest := serialAux_homog a ys
              (fun z hz =>
                ((hv z (List.mem_cons_of_mem y hz)).trans hba))
            simp [serialAux, hya, hrest]
          · have hne : (y == a) = false := by
              cases y <;> cases a <;> simp_all
            have hall : ys.all (fun z => z == y) = true := by
              rw [List.all_eq_true]
              intro z hz
              have hz' := (hv z (List.mem_cons_of_mem y hz)).trans hy.symm
              simp [hz']
            simp [serialAux, hne, hall]
  | x :: us, hu, v, hv => by
      have hx : x = a := hu x (List.mem_cons_self x us)
      have hrest : serialAux a (us ++ v) = true :=
        serialAux_two a b us
          (fun z hz => hu z (List.mem_cons_of_mem x hz)) v hv
      show serialAux a (x :: (us ++ v)) = true
      simp [serialAux, hx, hrest]

/-- A trace made of two homogeneous blocks passes the serialization
check. -/
lemma serialOk_two (a b : Bool) (u v : List Bool)
    (hu : ∀ z ∈ u, z = a) (hv : ∀ z ∈ v, z = b) :
    serialOk (u ++ v) = true := by
  cases u with
  | nil =>
      cases v with
      | nil => rfl
      | cons y ys =>
          have hy : y = b := hv y (List.mem_cons_self y ys)
          show serialAux y ys = true
          exact serialAux_homog y ys
            (fun z hz =>
              (hv z (List.mem_cons_of_mem y hz)).trans hy.symm)
  | cons x us =>
      have hx : x = a := hu x (List.mem_cons_self x us)
      show serialAux x (us ++ v) = true
      rw [hx]
      exact serialAux_two a b us
        (fun z hz => hu z (List.mem_cons_of_mem x hz)) v hv

/-- Projecting two homogeneous trace blocks to emitter names passes the
serialization check. -/
lemma serialOk_trace (u v : List (Bool × Fragment)) (a b : Bool)
    (hu : allBy a u) (hv : allBy b v) :
    serialOk ((u ++ v).map Prod.fst) = true := by
  rw [List.map_append]
  refine serialOk_two a b (u.map Prod.fst) (v.map Prod.fst) ?_ ?_
  · intro z hz
    obtain ⟨e, he, rfl⟩ := List.mem_map.mp hz
    exact hu e he
  · intro z hz
    obtain ⟨e, he, rfl⟩ := List.mem_map.mp hz
    exact hv e he

/-- A single homogeneous trace passes the serialization check. -/
lemma serialOk_trace_one (tr : List (Bool × Fragment)) (a : Bool)
    (h : allBy a tr) : serialOk (tr.map Prod.fst) = true := by
  have h2 := serialOk_trace tr [] a a h (allBy_nil a)
  simpa using h2

/-- C4 (confirmed): the query gate serializes the two query tasks of one
session — for instance `start()`'s analysis query and a concurrently
issued `send_message()` follow-up query, which both stream their fragments
inside an `async with self._query_lock` block.  Under every scheduler
interleaving, the emitted trace consists of at most two single-task
blocks: a task acquires the lock only when free and releases it only after
its query's stream is exhausted, so no fragments of the two queries are
ever interleaved, and the later query emits nothing before the earlier
query's stream has fully finished. -/
theorem query_lock_serializes (fA fB : List Fragment) (sch : List Bool) :
    serialOk ((lockRun fA fB sch).trace.map Prod.fst) = true := by
  have h := lockRun_inv fA fB sch
  generalize hs : lockRun fA fB sch = s at h ⊢
  obtain ⟨ta, tb, tr⟩ := s
  cases ta with
  | idle =>
    cases tb with
    | idle =>
        have htr : tr = [] := h
        subst htr
        rfl
    | running rem => exact serialOk_trace_one tr false h
    | done => exact serialOk_trace_one tr false h
  | running rem =>
    cases tb with
    | idle => exact serialOk_trace_one tr true h
    | running rem2 => exact (h : False).elim
    | done =>
        have h' : ∃ u v, tr = u ++ v ∧ allBy false u ∧ allBy true v := h
        obtain ⟨u, v, htr, hu, hv⟩ := h'
        subst htr
        exact serialOk_trace u v false true hu hv
  | done =>
    cases tb with
    | idle => exact serialOk_trace_one tr true h
    | running rem =>
        have h' : ∃ u v, tr = u ++ v ∧ allBy true u ∧ allBy false v := h
        obtain ⟨u, v, htr, hu, hv⟩ := h'
        subst htr
        exact serialOk_trace u v true false hu hv
    | done =>
        have h' : ∃ u v, tr = u ++ v ∧
            ((allBy true u ∧ allBy false v) ∨
             (allBy false u ∧ allBy true v)) := h
        obtain ⟨u, v, htr, hcase⟩ := h'
        subst htr
        rcases hcase with ⟨hu, hv⟩ | ⟨hu, hv⟩
        · exact serialOk_trace u v true false hu hv
        · exact serialOk_trace u v false true hu hv

/-- C3 witness: a state without a client connection is rejected. -/
theorem send_message_reject_iff_no_client_witness :
    send_message (QueryOutcome.success []) initialState "Hi".toList =
      ([Fragment.error notInitMsg], initialState) :=
  (send_message_reject_iff_no_client (QueryOutcome.success []) initialState
    "Hi".toList).mpr rfl

/-- C4 witness: one concrete interleaved schedule of two queries. -/
theorem query_lock_serializes_witness :
    serialOk (((lockRun [Fragment.text "a".toList] [Fragment.responseDone]
      [true, false, true, false, true, false, false, false]).trace).map
        Prod.fst) = true :=
  query_lock_serializes [Fragment.text "a".toList] [Fragment.responseDone]
    [true, false, true, false, true, false, false, false]

/-- C7 witness: draining a two-session registry closes both sessions and
empties the map; draining the empty registry is a no-op. -/
theorem cleanup_all_closes_all_and_empties_witness :
    cleanup_all_log_review_sessions [(1, 7), (2, 8)] (fun _ => false) =
      ([], [(1, 7), (2, 8)].map (fun p => p.2)) ∧
    (cleanup_all_log_review_sessions [(1, 7), (2, 8)]
      (fun _ => false)).2.length = 2 ∧
    cleanup_all_log_review_sessions [] (fun _ => false) = ([], []) := by
  have h := cleanup_all_closes_all_and_empties [(1, 7), (2, 8)]
    (fun _ => false)
  exact ⟨h.1, h.2.1, h.2.2⟩

end LogReview
